import Mathlib

/-!
Verification of the client-side data-access layer of `alert-client`
(`src/app/blog/page.tsx`): the retry/timeout HTTP helper
`ApiService.fetchWithRetry`, the TTL cache (`getCachedData` /
`setCachedData`), post processing (`fetchPosts`), deletion
(`deletePost` / `handleDeletePost`), the list-fetch UI handler
(`fetchPosts` useCallback) and the filtered view (`filteredPosts`).

Machine integers are modelled as `Nat`/`Int`; time is in milliseconds.
-/

namespace AlertClient

/-! ## RequestClient: `ApiService.fetchWithRetry`

The JS code (page.tsx lines 74-123):

* arms one `setTimeout(() => controller.abort(), 15000)` before the loop;
* loops `attempt = 1 .. maxRetries`;
* each iteration awaits `fetch`, then calls `clearTimeout` (both in the
  `try` after the await and at the top of the `catch`), so the timer is
  disarmed as soon as the FIRST attempt settles;
* a non-ok response at the last attempt, or with status < 500, throws an
  `HTTP <status>` error — inside the `try`, so the throw is caught by the
  same `catch` of that iteration;
* the `catch` rethrows at the last attempt, rethrows `AbortError`s, and
  otherwise sleeps `2^attempt * 1000` ms and retries (the same backoff the
  `try` uses after a retryable 5xx);
* the `throw new Error("Max retries exceeded")` after the loop is reached
  only if the loop body never runs.

The server is modelled as a function from attempt number to how that
`fetch` of each attempt behaves.
-/

/-- How a single `fetch` call behaves: resolve with a status after `dur` ms,
reject with a network error after `dur` ms, or never settle on its own. -/
inductive FetchOutcome where
  | response (dur : Nat) (status : Nat)
  | netError (dur : Nat)
  | hang
deriving DecidableEq, Repr

/-- The errors `fetchWithRetry` can throw: the `HTTP <status>` error built at
line 95, the `AbortError` produced when the abort signal fires, a
transport-level failure from `fetch`, and the `Max retries exceeded` error
after the loop. -/
inductive ReqError where
  | httpError (status : Nat)
  | abortError
  | networkError
  | maxRetriesExceeded
deriving DecidableEq, Repr

/-- Result of a `fetchWithRetry` call: a returned ok response, a thrown
error, or no settlement at all.  `t` is the time (ms since the call started)
of settlement; `delays` lists the backoff sleeps taken, in order. -/
inductive ReqResult where
  | success (status : Nat) (t : Nat) (delays : List Nat)
  | failure (e : ReqError) (t : Nat) (delays : List Nat)
  | hangs (delays : List Nat)
deriving DecidableEq, Repr

/-- The 15-second overall timeout (line 76). -/
def TIMEOUT_MS : Nat := 15000

/-- The exponential backoff, `Math.pow(2, attempt) * 1000` (lines 99, 114). -/
def backoffMs (attempt : Nat) : Nat := 2 ^ attempt * 1000

/-- `Response.ok`: status in the 200-299 range. -/
def respOk (status : Nat) : Bool := 200 ≤ status && status < 300

/-- How one awaited `fetch` settles. -/
inductive Settled where
  | resolved (status : Nat)
  | rejected (e : ReqError)
deriving DecidableEq, Repr

/-- Await one `fetch` starting at time `t`.  `armed` says the 15 s abort
timer is still pending (it fires at absolute time `TIMEOUT_MS`); `aborted`
says the signal has already fired.  Returns `none` when the fetch never
settles (outcome `hang` with no pending timer), else the settlement, its
time, and the updated timer/signal state. -/
def doFetch (o : FetchOutcome) (t : Nat) (armed aborted : Bool) :
    Option (Settled × Nat × Bool × Bool) :=
  if aborted then
    -- fetch with an already-aborted signal rejects immediately
    some (.rejected .abortError, t, armed, true)
  else
    match o with
    | .response dur status =>
      if armed && TIMEOUT_MS < t + dur then
        some (.rejected .abortError, max t TIMEOUT_MS, false, true)
      else
        some (.resolved status, t + dur, armed, false)
    | .netError dur =>
      if armed && TIMEOUT_MS < t + dur then
        some (.rejected .abortError, max t TIMEOUT_MS, false, true)
      else
        some (.rejected .networkError, t + dur, armed, false)
    | .hang =>
      if armed then
        some (.rejected .abortError, max t TIMEOUT_MS, false, true)
      else
        none

/-- The retry loop of `fetchWithRetry` (lines 84-118).  `remaining` is the
number of attempts still allowed including the current one (so the current
attempt is the last one exactly when `remaining` matches `n + 1` with
`n = 0`); `attempt` is the 1-based attempt counter used by the backoff. -/
def fetchLoop (server : Nat → FetchOutcome) :
    Nat → Nat → Nat → Bool → Bool → List Nat → ReqResult
  | 0, _, t, _, _, delays =>
    -- loop exhausted without returning: `throw new Error("Max retries exceeded")`
    .failure .maxRetriesExceeded t delays
  | remaining + 1, attempt, t, armed, aborted, delays =>
    match doFetch (server attempt) t armed aborted with
    | none => .hangs delays
    | some (.resolved status, t2, _, ab2) =>
      -- clearTimeout(timeoutId) at line 87: the timer is disarmed from here on
      if respOk status then
        .success status t2 delays
      else if remaining == 0 then
        -- last attempt: the `HTTP <status>` error thrown at line 95 is caught
        -- by the catch block, which rethrows it (line 105)
        .failure (.httpError status) t2 delays
      else
        -- status < 500 also throws at line 95, but the catch block (line 101)
        -- catches it, sees a non-abort error before the last attempt, and
        -- sleeps/retries (line 114) exactly like the 5xx path (line 99)
        fetchLoop server remaining (attempt + 1) (t2 + backoffMs attempt) false ab2
          (delays ++ [backoffMs attempt])
    | some (.rejected e, t2, _, ab2) =>
      -- clearTimeout(timeoutId) at line 102
      if remaining == 0 then
        .failure e t2 delays
      else
        match e with
        | .abortError => .failure e t2 delays
        | _ =>
          fetchLoop server remaining (attempt + 1) (t2 + backoffMs attempt) false ab2
            (delays ++ [backoffMs attempt])

/-- `ApiService.fetchWithRetry(url, options, maxRetries)`: arms the 15 s
timer and runs the loop from attempt 1 at time 0. -/
def fetchWithRetry (server : Nat → FetchOutcome) (maxRetries : Nat) : ReqResult :=
  fetchLoop server maxRetries 1 0 true false []

/-- Does the call fail with the `Max retries exceeded` error? -/
def failsWithMaxRetries : ReqResult → Bool
  | .failure .maxRetriesExceeded _ _ => true
  | _ => false

/-- Does the fetch of the first attempt settle on its own within the 15 s
deadline?  (`hang` never settles; the others settle after `dur` ms.) -/
def firstSettlesInTime : FetchOutcome → Bool
  | .response dur _ => dur ≤ TIMEOUT_MS
  | .netError dur => dur ≤ TIMEOUT_MS
  | .hang => false

/-- Does the call fail with an `AbortError` (the only Timeout condition the
code can produce)? -/
def isAbortFailure : ReqResult → Bool
  | .failure .abortError _ _ => true
  | _ => false

/-- A server that answers every attempt at once with the given status. -/
def allServerError (status : Nat) : Nat → FetchOutcome := fun _ => .response 0 status

/-- A server that answers the first attempt with a 500 after one second and
then stops responding altogether. -/
def slowServer : Nat → FetchOutcome :=
  fun n => if n == 1 then .response 1000 500 else .hang

/-- A server that returns 500 on the first two attempts and 200 afterwards. -/
def srvTwo500 : Nat → FetchOutcome :=
  fun n => if n ≤ 2 then .response 0 500 else .response 0 200

/-- Does this outcome settle as a failure the spec calls retryable: a
server-error (5xx) response, or a transport-level network failure? -/
def retryableFailure : FetchOutcome → Bool
  | .response _ status => decide (500 ≤ status)
  | .netError _ => true
  | .hang => false

/-- The error a settled attempt would throw: the `HTTP <status>` error of a
non-ok response, or the network error of a transport failure. -/
def attemptError : FetchOutcome → Option ReqError
  | .response _ status => if respOk status then none else some (.httpError status)
  | .netError _ => some .networkError
  | .hang => none

/-- The error of a failed result, if the result is a failure. -/
def resultError : ReqResult → Option ReqError
  | .failure e _ _ => some e
  | _ => none

/-- A server whose attempts fail in three different retryable ways: a
network error, then a 500, then a 503 — so the error of the final attempt
differs from the errors of the earlier ones. -/
def mixedFailServer : Nat → FetchOutcome :=
  fun n => if n == 1 then .netError 0 else if n == 2 then .response 0 500 else .response 0 503

/-! ## ResponseCache: `ApiService.cache` with `getCachedData` / `setCachedData`

The cache is a `Map<string, { data, timestamp }>` (line 71).  It is
modelled as an association list keyed by strings; `Map.get` is
`List.lookup`, `Map.set` replaces the binding for the key, `Map.delete`
removes it.  Timestamps are `Date.now()` values in ms, modelled as `Int`
so that the `now - timestamp` subtraction is the JS one.  Operations that
read the cache return it alongside the result so frame properties can be
stated. -/

/-- `CACHE_DURATION = 5 * 60 * 1000` (line 72). -/
def CACHE_DURATION : Nat := 5 * 60 * 1000

/-- One stored entry: `{ data, timestamp }`. -/
structure CacheEntry (α : Type) where
  data : α
  timestamp : Int
deriving DecidableEq, Repr

/-- The in-memory cache map. -/
abbrev Cache (α : Type) := List (String × CacheEntry α)

/-- `Map.get(key)`: the entry bound to the key, if any. -/
def cacheGet (key : String) : Cache α → Option (CacheEntry α)
  | [] => none
  | (k2, v) :: rest => if key == k2 then some v else cacheGet key rest

/-- `getCachedData(key)` (lines 125-131): look the key up; return the data
while `Date.now() - cached.timestamp < CACHE_DURATION`, else `null`.  The
second component is the cache as the method leaves it. -/
def getCachedData (c : Cache α) (key : String) (now : Int) : Option α × Cache α :=
  match cacheGet key c with
  | some cached =>
    if now - cached.timestamp < (CACHE_DURATION : Int) then (some cached.data, c)
    else (none, c)
  | none => (none, c)

/-- `setCachedData(key, data)` (lines 133-135): store the payload under the
key with the current timestamp, replacing any prior binding. -/
def setCachedData (c : Cache α) (key : String) (data : α) (now : Int) : Cache α :=
  (key, ⟨data, now⟩) :: c.filter (fun p => p.1 != key)

/-- `Map.delete(key)`: remove the binding if present. -/
def cacheDelete (c : Cache α) (key : String) : Cache α :=
  c.filter (fun p => p.1 != key)

/-! ## The Post data model and `fetchPosts` post-processing -/

/-- The `Tag` interface (lines 19-23). -/
structure Tag where
  id : Nat
  name : String
  slug : String
deriving DecidableEq, Repr

/-- The `Post` interface (lines 36-55).  Optional TS fields are `Option`;
`status` is one of the strings `"published"`, `"draft"`, `"archived"`. -/
structure Post where
  id : String
  title : String
  excerpt : String
  body : String
  status : String
  slug : String
  cover_image : Option String
  author_id : String
  created_at : String
  updated_at : String
  published_at : Option String
  tags : Option (List Tag)
  views : Option Nat
  category : Option String
  readingTime : Option String
  publishedAt : Option String
deriving DecidableEq, Repr

/-- JS `split(sep)` for a one-character separator, over the character list:
splits at every separator occurrence and keeps empty chunks (so splitting
the empty string gives one empty chunk, as in JS). -/
def splitChars (sep : Char) : List Char → List (List Char)
  | [] => [[]]
  | c :: cs =>
    match splitChars sep cs with
    | [] => [[c]]
    | w :: ws => if c == sep then [] :: w :: ws else (c :: w) :: ws

/-- `(post.body || "").split(" ").length`: the number of chunks obtained by
splitting the body on single spaces. -/
def wordCount (body : String) : Nat := (splitChars ' ' body.data).length

/-- `Math.ceil(a / b)` for naturals (`b > 0` at every use site). -/
def ceilDiv (a b : Nat) : Nat := (a + b - 1) / b

/-- `post.tags && post.tags.length > 0 ? post.tags[0].name : "General"`
(line 150; the same expression recurs at line 275). -/
def postCategory (p : Post) : String :=
  match p.tags with
  | some (t :: _) => t.name
  | _ => "General"

/-- The per-post derivation in the `.map` inside `fetchPosts` (lines 148-156).
`formatDate` stands for `d => new Date(d).toLocaleDateString()`, the only
locale-dependent piece. -/
def processPost (formatDate : String → String) (p : Post) : Post :=
  { p with
    category := some (postCategory p)
    readingTime := some (toString (ceilDiv (wordCount p.body) 200) ++ " min")
    publishedAt := some (match p.published_at with
      | some d => formatDate d
      | none => "Draft")
    views := some (p.views.getD 0) }

/-- The whole `(data.posts || []).map(...)` step of `fetchPosts`. -/
def processPosts (formatDate : String → String) (posts : List Post) : List Post :=
  posts.map (processPost formatDate)

/-! ## `filteredPosts` (lines 270-283) -/

/-- Is `pre` a leading segment of `l`? -/
def startsWithChars : List Char → List Char → Bool
  | [], _ => true
  | _ :: _, [] => false
  | a :: as, b :: bs => a == b && startsWithChars as bs

/-- Does `l` contain `sub` as a contiguous run? -/
def hasSubChars (sub : List Char) : List Char → Bool
  | [] => startsWithChars sub []
  | b :: bs => startsWithChars sub (b :: bs) || hasSubChars sub bs

/-- JS `s.includes(sub)`. -/
def includesStr (s sub : String) : Bool := hasSubChars sub.data s.data

/-- JS `s.toLowerCase()`: lower-case every character. -/
def lowerStr (s : String) : String := ⟨s.data.map Char.toLower⟩

/-- The predicate of the `posts.filter` in the `filteredPosts` memo:
title/excerpt substring search (case-insensitive), category match against
the name of the first tag (or `"General"`), and exact status match, each
short-circuited by the `"all"` sentinel. -/
def postMatches (searchQuery categoryFilter statusFilter : String) (post : Post) : Bool :=
  let matchesSearch :=
    includesStr (lowerStr post.title) (lowerStr searchQuery)
      || includesStr (lowerStr post.excerpt) (lowerStr searchQuery)
  let matchesCategory :=
    categoryFilter == "all"
      || lowerStr (postCategory post) == lowerStr categoryFilter
  let matchesStatus := statusFilter == "all" || post.status == statusFilter
  matchesSearch && matchesCategory && matchesStatus

/-- `filteredPosts` (lines 270-283): a pure filter over the in-memory list,
recomputed from exactly these four inputs. -/
def filteredPosts (posts : List Post) (searchQuery categoryFilter statusFilter : String) :
    List Post :=
  posts.filter (postMatches searchQuery categoryFilter statusFilter)

/-! ## ArticleStore operations -/

/-- `ApiService.deletePost(id)` (lines 177-182): await the DELETE call
(modelled by `serverOk`); on success delete the `"posts"` and `"post-<id>"`
cache entries; on failure the thrown error propagates before any cache
mutation runs. -/
def deletePost (c : Cache α) (id : String) (serverOk : Bool) : Except Unit (Cache α) :=
  if serverOk then
    .ok (cacheDelete (cacheDelete c "posts") ("post-" ++ id))
  else
    .error ()

/-- The state `handleDeletePost` leaves behind; `refetchRan` records whether
`fetchPosts()` was invoked to resynchronize. -/
structure DeleteResult (α : Type) where
  posts : List Post
  error : Option String
  cache : Cache α
  refetchRan : Bool
deriving Repr

/-- `handleDeletePost(id)` (lines 327-344): after the confirm dialog,
clear the error and await `ApiService.deletePost`; only on its success
filter the post out of state; on failure set the error message and re-run
`fetchPosts()`. -/
def handleDeletePost (posts : List Post) (err0 : Option String) (c : Cache α)
    (id : String) (confirmed serverOk : Bool) (errMsg : String) : DeleteResult α :=
  if !confirmed then
    ⟨posts, err0, c, false⟩
  else
    match deletePost c id serverOk with
    | .ok c2 => ⟨posts.filter (fun post => post.id != id), none, c2, false⟩
    | .error _ => ⟨posts, some errMsg, c, true⟩

/-- The pieces of component state the `fetchPosts` useCallback touches. -/
structure FetchUIState where
  posts : List Post
  loading : Bool
  retrying : Bool
  error : Option String
deriving DecidableEq, Repr

/-- The `fetchPosts` useCallback (lines 218-241): set the loading or
retrying flag, clear the error, await `ApiService.fetchPosts()` (modelled
by `result`); on success store the list, on failure record the message and
clear the list only when it was already empty; finally clear both flags. -/
def fetchPostsUI (st : FetchUIState) (showRetryState : Bool)
    (result : Except String (List Post)) : FetchUIState :=
  let st1 :=
    if showRetryState then { st with retrying := true, error := none }
    else { st with loading := true, error := none }
  match result with
  | .ok ps => { st1 with posts := ps, loading := false, retrying := false }
  | .error msg =>
    { st1 with
      error := some msg
      posts := if st1.posts.length == 0 then [] else st1.posts
      loading := false
      retrying := false }

/-! ## Concrete scenario inputs -/

/-- `n + 1` copies of the chunk `w` joined by single `sep` characters. -/
def sepJoined (sep : Char) (w : List Char) : Nat → List Char
  | 0 => w
  | n + 1 => w ++ sep :: sepJoined sep w n

/-- A body of exactly 400 space-separated words. -/
def body400 : String := ⟨sepJoined ' ' "word".data 399⟩

/-- The scenario post of the spec: title `"A"`, a 400-word body, empty tags. -/
def post400 : Post :=
  { id := "1", title := "A", excerpt := "", body := body400, status := "draft",
    slug := "a", cover_image := none, author_id := "author", created_at := "",
    updated_at := "", published_at := none, tags := some [], views := none,
    category := none, readingTime := none, publishedAt := none }

/-- A concrete published post whose title contains the search text. -/
def diabetesPost : Post :=
  { id := "2", title := "Managing Diabetes", excerpt := "Tips for patients",
    body := "one two", status := "published", slug := "managing-diabetes",
    cover_image := none, author_id := "author", created_at := "", updated_at := "",
    published_at := some "2024-01-01", tags := none, views := some 3,
    category := none, readingTime := none, publishedAt := none }

/-! ## Helper lemmas -/

/-- Looking a key up after `cacheDelete` removed that key always misses. -/
theorem cacheGet_cacheDelete_self (c : Cache α) (k : String) :
    cacheGet k (cacheDelete c k) = none := by
  induction c with
  | nil => rfl
  | cons a c ih =>
    rcases a with ⟨k2, v⟩
    by_cases h : k2 = k
    · simpa [cacheDelete, List.filter_cons, h] using ih
    · simpa [cacheDelete, List.filter_cons, cacheGet, h, Ne.symm h] using ih

/-- `cacheDelete` never creates a binding: an absent key stays absent. -/
theorem cacheGet_cacheDelete_none (c : Cache α) (k k2 : String)
    (h : cacheGet k c = none) : cacheGet k (cacheDelete c k2) = none := by
  induction c with
  | nil => rfl
  | cons a c ih =>
    rcases a with ⟨k3, v⟩
    by_cases hk : k = k3
    · simp [cacheGet, hk] at h
    · have h2 : cacheGet k c = none := by simpa [cacheGet, hk] using h
      by_cases h3 : k3 = k2
      · simpa [cacheDelete, List.filter_cons, h3] using ih h2
      · simpa [cacheDelete, List.filter_cons, cacheGet, hk, h3] using ih h2

/-- `splitChars` always yields at least one chunk. -/
theorem splitChars_ne_nil (sep : Char) (l : List Char) : splitChars sep l ≠ [] := by
  cases l with
  | nil => simp [splitChars]
  | cons c cs =>
    cases h : splitChars sep cs with
    | nil => simp [splitChars, h]
    | cons w ws =>
      by_cases hc : c == sep <;> simp [splitChars, h, hc]

/-- A chunk without the separator is split into exactly itself. -/
theorem splitChars_no_sep (sep : Char) (w : List Char) (h : sep ∉ w) :
    splitChars sep w = [w] := by
  induction w with
  | nil => rfl
  | cons c cs ih =>
    have hc : ¬(c == sep) = true := by
      simp only [beq_iff_eq]
      intro hceq
      exact h (by simp [hceq])
    have hcs : sep ∉ cs := fun hx => h (List.mem_cons_of_mem _ hx)
    simp [splitChars, ih hcs, hc]

/-- Splitting after a separator-free leading chunk peels that chunk off. -/
theorem splitChars_append (sep : Char) (xs ys : List Char) (h : sep ∉ xs) :
    splitChars sep (xs ++ sep :: ys) = xs :: splitChars sep ys := by
  induction xs with
  | nil =>
    cases hy : splitChars sep ys with
    | nil => exact absurd hy (splitChars_ne_nil sep ys)
    | cons w ws => simp [splitChars, hy]
  | cons c cs ih =>
    have hc : ¬(c == sep) = true := by
      simp only [beq_iff_eq]
      intro hceq
      exact h (by simp [hceq])
    have hcs : sep ∉ cs := fun hx => h (List.mem_cons_of_mem _ hx)
    simp [splitChars, ih hcs, hc]

/-- Joining `n + 1` separator-free chunks yields `n + 1` chunks on split. -/
theorem splitChars_sepJoined (sep : Char) (w : List Char) (h : sep ∉ w) (n : Nat) :
    (splitChars sep (sepJoined sep w n)).length = n + 1 := by
  induction n with
  | zero => simp [sepJoined, splitChars_no_sep sep w h]
  | succ n ih =>
    simp [sepJoined, splitChars_append sep w _ h, ih]

/-- The scenario body really has 400 words. -/
theorem wordCount_body400 : wordCount body400 = 400 := by
  have : (' ' ∉ "word".data) := by decide
  simpa [wordCount, body400] using splitChars_sepJoined ' ' "word".data this 399

/-- `fetchLoop` entered with at least one attempt left never produces the
`Max retries exceeded` error: at the last attempt either the ok response is
returned or the catch block rethrows that attempt's own error, so the loop
never falls through to the throw after it. -/
theorem fetchLoop_no_max (server : Nat → FetchOutcome) :
    ∀ (remaining attempt t : Nat) (armed ab : Bool) (delays : List Nat),
      failsWithMaxRetries (fetchLoop server (remaining + 1) attempt t armed ab delays)
        = false := by
  intro remaining
  induction remaining with
  | zero =>
    intro attempt t armed ab delays
    rw [fetchLoop]
    by_cases hab : ab
    · simp [doFetch, hab, failsWithMaxRetries]
    · cases ho : server attempt with
      | response dur status =>
        by_cases hto : (armed && decide (TIMEOUT_MS < t + dur)) = true
        · simp [doFetch, hab, ho, hto, failsWithMaxRetries]
        · by_cases hok : respOk status = true
          · simp [doFetch, hab, ho, hto, hok, failsWithMaxRetries]
          · simp [doFetch, hab, ho, hto, hok, failsWithMaxRetries]
      | netError dur =>
        by_cases hto : (armed && decide (TIMEOUT_MS < t + dur)) = true
        · simp [doFetch, hab, ho, hto, failsWithMaxRetries]
        · simp [doFetch, hab, ho, hto, failsWithMaxRetries]
      | hang =>
        by_cases harm : armed = true
        · simp [doFetch, hab, ho, harm, failsWithMaxRetries]
        · simp [doFetch, hab, ho, harm, failsWithMaxRetries]
  | succ r ih =>
    intro attempt t armed ab delays
    rw [fetchLoop]
    by_cases hab : ab
    · simp [doFetch, hab, failsWithMaxRetries]
    · cases ho : server attempt with
      | response dur status =>
        by_cases hto : (armed && decide (TIMEOUT_MS < t + dur)) = true
        · simp [doFetch, hab, ho, hto, failsWithMaxRetries]
        · by_cases hok : respOk status = true
          · simp [doFetch, hab, ho, hto, hok, failsWithMaxRetries]
          · simp [doFetch, hab, ho, hto, hok]
            exact ih _ _ _ _ _
      | netError dur =>
        by_cases hto : (armed && decide (TIMEOUT_MS < t + dur)) = true
        · simp [doFetch, hab, ho, hto, failsWithMaxRetries]
        · simp [doFetch, hab, ho, hto]
          exact ih _ _ _ _ _
      | hang =>
        by_cases harm : armed = true
        · simp [doFetch, hab, ho, harm, failsWithMaxRetries]
        · simp [doFetch, hab, ho, harm, failsWithMaxRetries]

/-- With the timer disarmed and the abort signal clean, a run of attempts
that all end in retryable failures fails with the error of the LAST of
them. -/
theorem fetchLoop_final_error (server : Nat → FetchOutcome) :
    ∀ (r attempt t : Nat) (delays : List Nat),
      (∀ n, attempt ≤ n → n ≤ attempt + r → retryableFailure (server n) = true) →
      resultError (fetchLoop server (r + 1) attempt t false false delays)
        = attemptError (server (attempt + r)) := by
  intro r
  induction r with
  | zero =>
    intro attempt t delays h
    have hcur := h attempt le_rfl (by omega)
    rw [fetchLoop]
    cases ho : server attempt with
    | response dur status =>
      have hstat : 500 ≤ status := by simpa [retryableFailure, ho] using hcur
      have hok : respOk status = false := by
        simp [respOk]
        omega
      simp [doFetch, ho, hok, resultError, attemptError]
    | netError dur =>
      simp [doFetch, ho, resultError, attemptError]
    | hang =>
      simp [retryableFailure, ho] at hcur
  | succ r ih =>
    intro attempt t delays h
    have hcur := h attempt le_rfl (by omega)
    rw [fetchLoop]
    cases ho : server attempt with
    | response dur status =>
      have hstat : 500 ≤ status := by simpa [retryableFailure, ho] using hcur
      have hok : respOk status = false := by
        simp [respOk]
        omega
      have hrec := ih (attempt + 1) (t + dur + backoffMs attempt)
        (delays ++ [backoffMs attempt]) (fun n h1 h2 => h n (by omega) (by omega))
      rw [show attempt + 1 + r = attempt + (r + 1) by omega] at hrec
      simpa [doFetch, ho, hok] using hrec
    | netError dur =>
      have hrec := ih (attempt + 1) (t + dur + backoffMs attempt)
        (delays ++ [backoffMs attempt]) (fun n h1 h2 => h n (by omega) (by omega))
      rw [show attempt + 1 + r = attempt + (r + 1) by omega] at hrec
      simpa [doFetch, ho] using hrec
    | hang =>
      simp [retryableFailure, ho] at hcur

/-! ## Claims -/

/-- Claim C1, counterexample.  With `maxRetries = 3` and a server that
answers 500 to every attempt, every attempt ends in a retryable failure,
yet the call fails with the error of the final attempt (`HTTP 500`, after
the 2 s and 4 s backoffs, at t = 6000 ms) and not with the
`Max retries exceeded` error: at the last attempt the `catch` block
rethrows the HTTP error of that attempt, so the fall-through throw after
the loop is never reached. -/
theorem C1_counterexample :
    fetchWithRetry (allServerError 500) 3 = .failure (.httpError 500) 6000 [2000, 4000]
      ∧ failsWithMaxRetries (fetchWithRetry (allServerError 500) 3) = false :=
  ⟨rfl, rfl⟩

/-- Claim C1, amended.  For every server and every `maxRetries ≥ 1`: when
every attempt up to the budget ends in a retryable failure (a 5xx response
or a network error, the first attempt settling within the deadline),
`fetchWithRetry` fails with the error of the FINAL attempt — the `HTTP
<status>` error of its 5xx response, or its network error — and, entirely
unconditionally, no call with `maxRetries ≥ 1` ever fails with the
`Max retries exceeded` error: that throw after the loop is unreachable. -/
theorem C1_amended :
    (∀ (server : Nat → FetchOutcome) (maxRetries : Nat),
        1 ≤ maxRetries →
        firstSettlesInTime (server 1) = true →
        (∀ n, 1 ≤ n → n ≤ maxRetries → retryableFailure (server n) = true) →
        resultError (fetchWithRetry server maxRetries) = attemptError (server maxRetries))
    ∧ (∀ (server : Nat → FetchOutcome) (maxRetries : Nat), 1 ≤ maxRetries →
        failsWithMaxRetries (fetchWithRetry server maxRetries) = false) := by
  constructor
  · intro server maxRetries h1 h2 h3
    obtain ⟨r, rfl⟩ : ∃ r, maxRetries = r + 1 := ⟨maxRetries - 1, by omega⟩
    have hcur := h3 1 le_rfl (by omega)
    unfold fetchWithRetry
    cases r with
    | zero =>
      rw [fetchLoop]
      cases ho : server 1 with
      | response dur status =>
        have hdur : dur ≤ TIMEOUT_MS := by simpa [firstSettlesInTime, ho] using h2
        have hto : ¬ TIMEOUT_MS < dur := by omega
        have hstat : 500 ≤ status := by simpa [retryableFailure, ho] using hcur
        have hok : respOk status = false := by
          simp [respOk]
          omega
        simp [doFetch, ho, hto, hok, resultError, attemptError]
      | netError dur =>
        have hdur : dur ≤ TIMEOUT_MS := by simpa [firstSettlesInTime, ho] using h2
        have hto : ¬ TIMEOUT_MS < dur := by omega
        simp [doFetch, ho, hto, resultError, attemptError]
      | hang =>
        simp [retryableFailure, ho] at hcur
    | succ r2 =>
      rw [fetchLoop]
      cases ho : server 1 with
      | response dur status =>
        have hdur : dur ≤ TIMEOUT_MS := by simpa [firstSettlesInTime, ho] using h2
        have hto : ¬ TIMEOUT_MS < dur := by omega
        have hstat : 500 ≤ status := by simpa [retryableFailure, ho] using hcur
        have hok : respOk status = false := by
          simp [respOk]
          omega
        have hrec := fetchLoop_final_error server r2 2 (0 + dur + backoffMs 1)
          ([] ++ [backoffMs 1]) (fun n hn1 hn2 => h3 n (by omega) (by omega))
        rw [show 2 + r2 = r2 + 1 + 1 by omega] at hrec
        simpa [doFetch, ho, hto, hok] using hrec
      | netError dur =>
        have hdur : dur ≤ TIMEOUT_MS := by simpa [firstSettlesInTime, ho] using h2
        have hto : ¬ TIMEOUT_MS < dur := by omega
        have hrec := fetchLoop_final_error server r2 2 (0 + dur + backoffMs 1)
          ([] ++ [backoffMs 1]) (fun n hn1 hn2 => h3 n (by omega) (by omega))
        rw [show 2 + r2 = r2 + 1 + 1 by omega] at hrec
        simpa [doFetch, ho, hto] using hrec
      | hang =>
        simp [retryableFailure, ho] at hcur
  · intro server maxRetries h1
    obtain ⟨r, rfl⟩ : ∃ r, maxRetries = r + 1 := ⟨maxRetries - 1, by omega⟩
    exact fetchLoop_no_max server r 1 0 true false []

/-- Witness for `C1_amended` at a server whose three attempts fail with a
network error, a 500 and a 503: the call fails with the `HTTP 503` error of
the final attempt, distinct from the errors of the earlier attempts, and
not with the `Max retries exceeded` error. -/
theorem C1_amended_witness :
    1 ≤ 3 ∧ firstSettlesInTime (mixedFailServer 1) = true
      ∧ retryableFailure (mixedFailServer 1) = true
      ∧ retryableFailure (mixedFailServer 2) = true
      ∧ retryableFailure (mixedFailServer 3) = true
      ∧ resultError (fetchWithRetry mixedFailServer 3) = attemptError (mixedFailServer 3)
      ∧ resultError (fetchWithRetry mixedFailServer 3) = some (.httpError 503)
      ∧ failsWithMaxRetries (fetchWithRetry mixedFailServer 3) = false :=
  ⟨by decide, by decide, by decide, by decide, by decide,
   C1_amended.1 mixedFailServer 3 (by decide) (by decide)
     (by intro n h1 h2; interval_cases n <;> decide),
   by decide,
   C1_amended.2 mixedFailServer 3 (by decide)⟩

/-- Claim C2, counterexample.  The 15 s deadline does not cover the whole
operation: with a server that answers the first attempt with a 500 after
one second and then never responds, no successful response ever arrives,
yet the call is never aborted and never fails with a timeout condition —
the timer was cleared when the first attempt settled, so the second
attempt hangs forever. -/
theorem C2_counterexample :
    fetchWithRetry slowServer 3 = .hangs [2000]
      ∧ isAbortFailure (fetchWithRetry slowServer 3) = false :=
  ⟨rfl, rfl⟩

/-- Claim C2, amended.  The 15 s timer governs only the first attempt:
whenever the first attempt does not settle within 15 s of the call
starting, the in-flight call is aborted and the whole operation fails with
the `AbortError` at t = 15000 ms, with no retry; once the first attempt
settles, the timer is cleared and later attempts run under no deadline. -/
theorem C2_amended (server : Nat → FetchOutcome) (maxRetries : Nat)
    (h1 : 1 ≤ maxRetries) (h2 : firstSettlesInTime (server 1) = false) :
    fetchWithRetry server maxRetries = .failure .abortError TIMEOUT_MS [] := by
  obtain ⟨r, rfl⟩ : ∃ r, maxRetries = r + 1 := ⟨maxRetries - 1, by omega⟩
  unfold fetchWithRetry fetchLoop
  cases hs : server 1 with
  | response dur status =>
    have hd : TIMEOUT_MS < dur := by
      simp [firstSettlesInTime, hs] at h2
      omega
    simp [doFetch, hs, hd]
  | netError dur =>
    have hd : TIMEOUT_MS < dur := by
      simp [firstSettlesInTime, hs] at h2
      omega
    simp [doFetch, hs, hd]
  | hang =>
    simp [doFetch, hs]

/-- Witness for `C2_amended`: a first attempt that never settles. -/
theorem C2_amended_witness :
    1 ≤ 3 ∧ firstSettlesInTime ((fun _ => FetchOutcome.hang) 1) = false
      ∧ fetchWithRetry (fun _ => .hang) 3 = .failure .abortError TIMEOUT_MS [] :=
  ⟨by decide, by decide, C2_amended (fun _ => .hang) 3 (by decide) (by decide)⟩

/-- Claim C3.  When an attempt receives a 5xx response and attempts remain,
the client waits `2^attempt` seconds and retries, so successive backoff
delays double; and in the concrete scenario 500, 500, 200 with
`maxRetries = 3` the call returns the successful third response at
t = 6000 ms after backoffs of 2000 ms and 4000 ms, the second delay being
exactly twice the first. -/
theorem C3_backoff :
    (∀ (server : Nat → FetchOutcome) (remaining attempt t : Nat) (delays : List Nat)
        (dur status : Nat),
        server attempt = .response dur status → 500 ≤ status →
        fetchLoop server (remaining + 2) attempt t false false delays
          = fetchLoop server (remaining + 1) (attempt + 1)
              (t + dur + backoffMs attempt) false false (delays ++ [backoffMs attempt]))
    ∧ (∀ n, backoffMs (n + 1) = 2 * backoffMs n)
    ∧ fetchWithRetry srvTwo500 3 = .success 200 6000 [2000, 4000]
    ∧ backoffMs 1 = 2000 ∧ backoffMs 2 = 4000 ∧ 2 * 2000 ≤ 4000 := by
  refine ⟨?_, ?_, rfl, rfl, rfl, by decide⟩
  · intro server remaining attempt t delays dur status hs hstatus
    have hok : respOk status = false := by
      simp [respOk]
      omega
    conv_lhs => rw [fetchLoop]
    simp [doFetch, hs, hok]
  · intro n
    simp [backoffMs, pow_succ]
    ring

/-- Witness for `C3_backoff`: one 500 step unfolds to a backoff retry. -/
theorem C3_backoff_witness :
    ((fun _ => FetchOutcome.response 0 500) 1 = .response 0 500) ∧ 500 ≤ 500
      ∧ fetchLoop (fun _ => .response 0 500) 2 1 0 false false []
        = fetchLoop (fun _ => .response 0 500) 1 2 (0 + 0 + backoffMs 1) false false
            ([] ++ [backoffMs 1]) :=
  ⟨rfl, by decide, C3_backoff.1 (fun _ => .response 0 500) 0 1 0 [] 0 500 rfl (by decide)⟩

/-- Claim C4 (code bug), evaluation at the failing input.  A server that
answers 404 to every attempt: instead of failing immediately after one
attempt with no backoff, `fetchWithRetry` with `maxRetries = 3` sleeps
2 s, retries, sleeps 4 s, retries again, and only then fails with the
`HTTP 404` error at t = 6000 ms — the HTTP error thrown inside the `try`
is caught by the same `catch`, whose abort-only check lets client errors
be retried like network errors. -/
theorem C4_client_error_retried :
    fetchWithRetry (allServerError 404) 3 = .failure (.httpError 404) 6000 [2000, 4000] :=
  rfl

/-- Claim C5.  `getCachedData` after `setCachedData` returns exactly the
stored payload while `now - timestamp < CACHE_DURATION` (5 minutes), and a
miss (`none`) once the age reaches or exceeds it. -/
theorem C5_cache_ttl (α : Type) (c : Cache α) (key : String) (data : α) (t now : Int) :
    (now - t < (CACHE_DURATION : Int) →
      (getCachedData (setCachedData c key data t) key now).1 = some data)
    ∧ ((CACHE_DURATION : Int) ≤ now - t →
      (getCachedData (setCachedData c key data t) key now).1 = none) := by
  constructor
  · intro h
    simp [getCachedData, setCachedData, cacheGet, h]
  · intro h
    simp [getCachedData, setCachedData, cacheGet, not_lt.mpr h]

/-- Witness for `C5_cache_ttl`: a fresh and an expired read of one entry. -/
theorem C5_cache_ttl_witness :
    (getCachedData (setCachedData ([] : Cache Nat) "posts" 7 0) "posts" 0).1 = some 7
    ∧ (getCachedData (setCachedData ([] : Cache Nat) "posts" 7 0) "posts" 300000).1 = none :=
  ⟨(C5_cache_ttl Nat [] "posts" 7 0 0).1 (by decide),
   (C5_cache_ttl Nat [] "posts" 7 0 300000).2 (by decide)⟩

/-- Claim C6.  `handleDeletePost` applies the in-memory removal only in the
branch where the server confirmed the deletion; on success it filters the
post out of state, clears the error, deletes both the `"posts"` and
`"post-<id>"` cache entries, and runs no refetch; on server failure the
posts are left untouched, the error is reported, the cache is unchanged,
and `fetchPosts()` is re-run to resynchronize. -/
theorem C6_delete_confirm_then_apply (α : Type) (posts : List Post) (err0 : Option String)
    (c : Cache α) (id : String) (errMsg : String) :
    ((handleDeletePost posts err0 c id true true errMsg).posts
        = posts.filter (fun post => post.id != id)
      ∧ (handleDeletePost posts err0 c id true true errMsg).posts.all
          (fun post => post.id != id) = true
      ∧ (handleDeletePost posts err0 c id true true errMsg).error = none
      ∧ cacheGet "posts" (handleDeletePost posts err0 c id true true errMsg).cache = none
      ∧ cacheGet ("post-" ++ id) (handleDeletePost posts err0 c id true true errMsg).cache
          = none
      ∧ (handleDeletePost posts err0 c id true true errMsg).refetchRan = false)
    ∧ ((handleDeletePost posts err0 c id true false errMsg).posts = posts
      ∧ (handleDeletePost posts err0 c id true false errMsg).error = some errMsg
      ∧ (handleDeletePost posts err0 c id true false errMsg).cache = c
      ∧ (handleDeletePost posts err0 c id true false errMsg).refetchRan = true) := by
  refine ⟨⟨rfl, ?_, rfl, ?_, ?_, rfl⟩, rfl, rfl, rfl, rfl⟩
  · simp only [List.all_eq_true, handleDeletePost, deletePost, Bool.not_true]
    intro p hp
    exact (List.mem_filter.mp hp).2
  · show cacheGet "posts" (cacheDelete (cacheDelete c "posts") ("post-" ++ id)) = none
    exact cacheGet_cacheDelete_none _ _ _ (cacheGet_cacheDelete_self c "posts")
  · show cacheGet ("post-" ++ id) (cacheDelete (cacheDelete c "posts") ("post-" ++ id)) = none
    exact cacheGet_cacheDelete_self _ _

/-- Claim C7.  The computed fields derived by `fetchPosts` per post:
category is the name of the first tag, or `"General"` when tags are absent
or empty; reading time is the word count of the body divided by 200 and
rounded up, rendered as `"<n> min"`; the displayed publish date is the
formatted `published_at` when present, else `"Draft"`; and the concrete
400-word scenario post gets reading time 2. -/
theorem C7_derived_fields (formatDate : String → String) (p : Post) :
    (∀ t ts, p.tags = some (t :: ts) → (processPost formatDate p).category = some t.name)
    ∧ (p.tags = none ∨ p.tags = some [] →
        (processPost formatDate p).category = some "General")
    ∧ (processPost formatDate p).readingTime
        = some (toString (ceilDiv (wordCount p.body) 200) ++ " min")
    ∧ (∀ d, p.published_at = some d →
        (processPost formatDate p).publishedAt = some (formatDate d))
    ∧ (p.published_at = none → (processPost formatDate p).publishedAt = some "Draft")
    ∧ wordCount body400 = 400
    ∧ ceilDiv 400 200 = 2
    ∧ (processPost formatDate post400).readingTime = some "2 min"
    ∧ (processPost formatDate post400).category = some "General" := by
  refine ⟨?_, ?_, rfl, ?_, ?_, wordCount_body400, by decide, ?_, ?_⟩
  · intro t ts h
    simp [processPost, postCategory, h]
  · intro h
    rcases h with h | h <;> simp [processPost, postCategory, h]
  · intro d h
    simp [processPost, h]
  · intro h
    simp [processPost, h]
  · show some (toString (ceilDiv (wordCount post400.body) 200) ++ " min") = some "2 min"
    have : post400.body = body400 := rfl
    rw [this, wordCount_body400]
    decide
  · simp [processPost, post400, postCategory]

/-- Witness for `C7_derived_fields` at the 400-word scenario post. -/
theorem C7_derived_fields_witness :
    (post400.tags = none ∨ post400.tags = some [])
    ∧ (processPost id post400).category = some "General"
    ∧ post400.published_at = none
    ∧ (processPost id post400).publishedAt = some "Draft"
    ∧ (processPost id post400).readingTime = some "2 min" :=
  ⟨Or.inr rfl,
   (C7_derived_fields id post400).2.1 (Or.inr rfl),
   rfl,
   (C7_derived_fields id post400).2.2.2.2.1 rfl,
   (C7_derived_fields id post400).2.2.2.2.2.2.2.1⟩

/-- Claim C8.  Membership in `filteredPosts` is characterized exactly by
the three conditions: case-insensitive substring match of the query in
title or excerpt, case-insensitive category match (or `"all"`), and exact
status match (or `"all"`); in particular with `searchQuery = "diabetes"`,
`categoryFilter = "all"`, `statusFilter = "published"` every returned post
is a published post whose lowercased title or excerpt contains
`"diabetes"`. -/
theorem C8_filtered_posts (posts : List Post) (q cf sf : String) (p : Post) :
    (p ∈ filteredPosts posts q cf sf ↔ p ∈ posts ∧ postMatches q cf sf p = true)
    ∧ (postMatches q cf sf p = true ↔
        ((includesStr (lowerStr p.title) (lowerStr q) = true
            ∨ includesStr (lowerStr p.excerpt) (lowerStr q) = true)
          ∧ (cf = "all" ∨ lowerStr (postCategory p) = lowerStr cf)
          ∧ (sf = "all" ∨ p.status = sf)))
    ∧ (p ∈ filteredPosts posts "diabetes" "all" "published" →
        (p ∈ posts ∧ p.status = "published"
          ∧ (includesStr (lowerStr p.title) "diabetes" = true
            ∨ includesStr (lowerStr p.excerpt) "diabetes" = true))) := by
  have hmatch : ∀ q2 cf2 sf2 : String, postMatches q2 cf2 sf2 p = true ↔
      ((includesStr (lowerStr p.title) (lowerStr q2) = true
          ∨ includesStr (lowerStr p.excerpt) (lowerStr q2) = true)
        ∧ (cf2 = "all" ∨ lowerStr (postCategory p) = lowerStr cf2)
        ∧ (sf2 = "all" ∨ p.status = sf2)) := by
    intro q2 cf2 sf2
    simp only [postMatches, Bool.and_eq_true, Bool.or_eq_true, beq_iff_eq]
    tauto
  refine ⟨List.mem_filter, hmatch q cf sf, ?_⟩
  · intro hp
    have hm := (List.mem_filter.mp hp)
    have := (hmatch "diabetes" "all" "published").mp hm.2
    have hlq : lowerStr "diabetes" = "diabetes" := by decide
    rw [hlq] at this
    exact ⟨hm.1, by tauto, this.1⟩

/-- Witness for `C8_filtered_posts` at a concrete matching post. -/
theorem C8_filtered_posts_witness :
    diabetesPost ∈ filteredPosts [diabetesPost] "diabetes" "all" "published"
    ∧ (diabetesPost ∈ [diabetesPost] ∧ diabetesPost.status = "published"
        ∧ (includesStr (lowerStr diabetesPost.title) "diabetes" = true
          ∨ includesStr (lowerStr diabetesPost.excerpt) "diabetes" = true)) := by
  have hmem : diabetesPost ∈ filteredPosts [diabetesPost] "diabetes" "all" "published" := by
    decide
  exact ⟨hmem,
    (C8_filtered_posts [diabetesPost] "diabetes" "all" "published" diabetesPost).2.2 hmem⟩

/-- Claim C9.  When the list fetch fails and the prior in-memory list is
non-empty, the `fetchPosts` useCallback surfaces the error message and
leaves the posts exactly as they were (and clears both progress flags). -/
theorem C9_preserve_stale (st : FetchUIState) (showRetryState : Bool) (msg : String)
    (h : st.posts ≠ []) :
    (fetchPostsUI st showRetryState (.error msg)).posts = st.posts
    ∧ (fetchPostsUI st showRetryState (.error msg)).error = some msg
    ∧ (fetchPostsUI st showRetryState (.error msg)).loading = false
    ∧ (fetchPostsUI st showRetryState (.error msg)).retrying = false := by
  have hlen : (st.posts.length == 0) = false := by
    simp only [beq_eq_false_iff_ne, ne_eq, List.length_eq_zero]
    exact h
  cases showRetryState <;> simp [fetchPostsUI, hlen]

/-- Witness for `C9_preserve_stale` at a one-element list. -/
theorem C9_preserve_stale_witness :
    (([diabetesPost] : List Post) ≠ [])
    ∧ (fetchPostsUI ⟨[diabetesPost], false, false, none⟩ false (.error "HTTP 500")).posts
        = [diabetesPost]
    ∧ (fetchPostsUI ⟨[diabetesPost], false, false, none⟩ false (.error "HTTP 500")).error
        = some "HTTP 500" :=
  ⟨List.cons_ne_nil _ _,
   (C9_preserve_stale ⟨[diabetesPost], false, false, none⟩ false "HTTP 500"
      (List.cons_ne_nil _ _)).1,
   (C9_preserve_stale ⟨[diabetesPost], false, false, none⟩ false "HTTP 500"
      (List.cons_ne_nil _ _)).2.1⟩

/-- Claim C10.  `getCachedData` never mutates the cache — for every key and
state it returns the map unchanged — and in particular a read of an entry
whose age reached the TTL misses without evicting: the expired entry is
still bound to its key afterwards. -/
theorem C10_get_frame (α : Type) (c : Cache α) (key : String) (now : Int) :
    ((getCachedData c key now).2 = c)
    ∧ (∀ e : CacheEntry α, cacheGet key c = some e →
        (CACHE_DURATION : Int) ≤ now - e.timestamp →
        (getCachedData c key now).1 = none ∧ cacheGet key c = some e) := by
  constructor
  · unfold getCachedData
    cases cacheGet key c with
    | none => rfl
    | some e => by_cases h : now - e.timestamp < (CACHE_DURATION : Int) <;> simp [h]
  · intro e he hexp
    refine ⟨?_, he⟩
    simp [getCachedData, he, not_lt.mpr hexp]

/-- Witness for `C10_get_frame` at an expired entry. -/
theorem C10_get_frame_witness :
    (getCachedData ([("posts", ⟨7, 0⟩)] : Cache Nat) "posts" 300000).1 = none
    ∧ cacheGet "posts" ([("posts", (⟨7, 0⟩ : CacheEntry Nat))]) = some ⟨7, 0⟩ :=
  (C10_get_frame Nat [("posts", ⟨7, 0⟩)] "posts" 300000).2 ⟨7, 0⟩ rfl (by decide)

end AlertClient
